import Mathlib

/-!
Verification of the OxiCloud-desktop synchronization engine against its
specification.  The repository ships the cross-language bridge header
`src/ios/Runner/bridge_generated.h`, which fixes the data model (the wire
structs) and the operation surface; the Rust engine behind those
declarations is not part of the sources, so the behavioural components
(conflict resolver, config gateway, transfer scheduler, state machine,
history log) are modelled from the specification and marked as such in
their doc comments.  Wire types are embedded faithfully: a pointer field
of the C struct becomes an `Option`, a by-value field stays a plain field;
`uint64_t`/`uint32_t` sizes and counts become `Nat`, `int64_t` timestamps
become `Int`.
-/

namespace OxiCloud

/-- `wire_cst_server_info` (bridge_generated.h, lines 49–58): every field is
by value or a required string; quota figures and the two capability flags
are plain scalars. -/
structure ServerInfo where
  url : String
  version : String
  name : String
  webdav_url : String
  quota_total : Nat
  quota_used : Nat
  supports_delta_sync : Bool
  supports_chunked_upload : Bool
deriving DecidableEq

/-- `wire_cst_auth_result` (bridge_generated.h, lines 142–148): `server_info`
is embedded by value (`struct wire_cst_server_info server_info;`), not
behind a pointer, so it is a plain field here. -/
structure AuthResult where
  success : Bool
  user_id : String
  username : String
  server_info : ServerInfo
  access_token : String
deriving DecidableEq

/-- Conflict kinds of §3 `ConflictInfo` (wire `conflict_type : int32_t`). -/
inductive ConflictType
  | bothModified
  | localDeletedRemoteModified
  | remoteDeletedLocalModified
  | typeMismatch
deriving DecidableEq

/-- `wire_cst_conflict_info` (bridge_generated.h, lines 44–47). -/
structure ConflictInfo where
  conflict_type : ConflictType
  detected_at : Int
deriving DecidableEq

/-- `wire_cst_sync_conflict` (bridge_generated.h, lines 74–82): both modified
timestamps are `int64_t` by value and both sizes are `uint64_t` by value —
none of them is a pointer, so none of them is nullable. -/
structure SyncConflict where
  id : String
  item_path : String
  local_modified : Int
  remote_modified : Int
  local_size : Nat
  remote_size : Nat
  conflict_type : ConflictType
deriving DecidableEq

/-- Transfer direction of a `SyncItem` (wire `direction : int32_t`). -/
inductive Direction
  | upload
  | download
  | noDir
deriving DecidableEq

/-- `SyncStatus` tagged variant (bridge_generated.h, lines 104–120). -/
inductive SyncStatus
  | idle
  | pending
  | inProgress
  | synced
  | conflict (info : ConflictInfo)
  | error (message : String)
deriving DecidableEq

/-- `wire_cst_sync_item` (bridge_generated.h, lines 122–135): `local_modified`
and `remote_modified` are `int64_t *` — nullable pointers — hence `Option`
here, unlike the by-value timestamps of `wire_cst_sync_conflict`. -/
structure SyncItem where
  id : String
  path : String
  name : String
  is_directory : Bool
  size : Nat
  content_hash : Option String
  local_modified : Option Int
  remote_modified : Option Int
  status : SyncStatus
  direction : Direction
  etag : Option String
  mime_type : Option String
deriving DecidableEq

/-- `wire_cst_sync_history_entry` (bridge_generated.h, lines 89–97). -/
structure SyncHistoryEntry where
  id : String
  timestamp : Int
  operation : String
  item_path : String
  direction : String
  status : String
  error_message : Option String
deriving DecidableEq

/-- `wire_cst_sync_result` (bridge_generated.h, lines 150–158). -/
structure SyncResult where
  success : Bool
  items_uploaded : Nat
  items_downloaded : Nat
  items_deleted : Nat
  conflicts : Nat
  errors : List String
  duration_ms : Nat
deriving DecidableEq

/-- `wire_cst_sync_status_info` (bridge_generated.h, lines 160–168).  The wire
exposes `progress_percent` as a C float; §4.3 defines its value exactly as
`bytes_transferred / total_bytes * 100` clamped to [0,100], which is
embedded here in exact `Nat` arithmetic. -/
structure SyncStatusInfo where
  is_syncing : Bool
  current_operation : String
  progress_percent : Nat
  items_synced : Nat
  items_total : Nat
  last_sync_time : Option Int
  next_sync_time : Option Int
deriving DecidableEq

/-- The two side timestamps of a `SyncItem` exactly as the wire exposes them:
nullable (`int64_t *`), so either side may be absent. -/
def itemSideTimes (i : SyncItem) : Option Int × Option Int :=
  (i.local_modified, i.remote_modified)

/-- The two side timestamps of a `SyncConflict` viewed through the same
optional lens: the wire stores them as plain `int64_t` values, so the view
is always `some`. -/
def conflictSideTimes (c : SyncConflict) : Option Int × Option Int :=
  (some c.local_modified, some c.remote_modified)

/-- The two side sizes of a `SyncConflict` viewed through the optional lens:
plain `uint64_t` values on the wire, hence always `some`. -/
def conflictSideSizes (c : SyncConflict) : Option Nat × Option Nat :=
  (some c.local_size, some c.remote_size)

/-- The `ServerInfo` carried by an `AuthResult`, viewed through the optional
lens: `wire_cst_auth_result.server_info` is embedded by value, hence always
`some`. -/
def authServerInfo (a : AuthResult) : Option ServerInfo :=
  some a.server_info

/-- A sync item for which neither side exists any longer: both nullable
modified-time pointers are null. -/
def orphanItem : SyncItem :=
  { id := "i1", path := "/a", name := "a", is_directory := false, size := 0,
    content_hash := none, local_modified := none, remote_modified := none,
    status := SyncStatus.idle, direction := Direction.noDir,
    etag := none, mime_type := none }

/-- A deletion conflict whose local side no longer exists; the wire struct
still stores a local timestamp and a local size by value. -/
def deletionConflict : SyncConflict :=
  { id := "c1", item_path := "/a", local_modified := 0, remote_modified := 7,
    local_size := 0, remote_size := 9,
    conflict_type := ConflictType.localDeletedRemoteModified }

/-- Claim C9: every `SyncConflict` carries both modified timestamps and both
sizes as non-nullable fields — whatever its conflict type, including the
deletion and type-mismatch kinds — while `SyncItem` can represent an absent
side with a `none` timestamp; absence of a side is not representable in a
`SyncConflict`. -/
theorem sync_conflict_sides_always_present :
    (∀ c : SyncConflict,
      (conflictSideTimes c).1.isSome = true ∧ (conflictSideTimes c).2.isSome = true ∧
      (conflictSideSizes c).1.isSome = true ∧ (conflictSideSizes c).2.isSome = true) ∧
    (∀ t : ConflictType, ∀ c : SyncConflict, c.conflict_type = t →
      (conflictSideTimes c).1.isSome = true ∧ (conflictSideTimes c).2.isSome = true) ∧
    (∃ i : SyncItem, (itemSideTimes i).1 = none ∧ (itemSideTimes i).2 = none) := by
  refine ⟨fun c => ⟨rfl, rfl, rfl, rfl⟩, fun t c _ => ⟨rfl, rfl⟩, ?_⟩
  exact ⟨orphanItem, rfl, rfl⟩

/-- Claim C9 witness: the implicational part of
`sync_conflict_sides_always_present` evaluated at a concrete deletion
conflict whose local side no longer exists. -/
theorem sync_conflict_sides_always_present_witness :
    (conflictSideTimes deletionConflict).1.isSome = true ∧
    (conflictSideTimes deletionConflict).2.isSome = true :=
  sync_conflict_sides_always_present.2.1
    ConflictType.localDeletedRemoteModified deletionConflict rfl

/-- A concrete server snapshot used by the failed-login example. -/
def sampleServer : ServerInfo :=
  { url := "https://s", version := "1", name := "s",
    webdav_url := "https://s/dav", quota_total := 1000, quota_used := 250,
    supports_delta_sync := true, supports_chunked_upload := false }

/-- A failed login: `success = false`, yet the wire struct still embeds a
full `ServerInfo` by value. -/
def failedLogin : AuthResult :=
  { success := false, user_id := "", username := "",
    server_info := sampleServer, access_token := "" }

/-- Claim C10: every `AuthResult` embeds a complete `ServerInfo` snapshot by
value — the optional view is always `some`, even when the success flag is
false — and a failed login therefore still carries quota figures and both
capability flags. -/
theorem auth_result_always_carries_server_info :
    (∀ a : AuthResult, (authServerInfo a).isSome = true) ∧
    (∀ a : AuthResult, authServerInfo a = some a.server_info) ∧
    (∃ a : AuthResult, a.success = false ∧
      (authServerInfo a).isSome = true ∧
      a.server_info.quota_total = 1000 ∧ a.server_info.quota_used = 250 ∧
      a.server_info.supports_delta_sync = true ∧
      a.server_info.supports_chunked_upload = false) := by
  refine ⟨fun a => rfl, fun a => rfl, ?_⟩
  exact ⟨failedLogin, rfl, rfl, rfl, rfl, rfl, rfl⟩

/-- Modelled from the spec: the Change Scanner's per-item view handed to the
Conflict Resolver (§4.1–§4.2).  The Rust engine behind
`frbgen_oxicloud_app_wire__crate__api__oxicloud__sync_now` is not under
`src/`; per §4.2 each candidate carries, besides its current local and
remote content hashes (absent when the side was deleted), the hash of the
last synced baseline tracked via the previously recorded hash/ETag. -/
structure ItemScan where
  path : String
  is_local_dir : Bool
  is_remote_dir : Bool
  baseline_hash : Option String
  local_hash : Option String
  remote_hash : Option String
  local_modified : Int
  remote_modified : Int
  local_size : Nat
  remote_size : Nat
deriving DecidableEq

/-- The local side changed since the last synced baseline (§4.2's decision
rule, tracked via the previously recorded hash). -/
def localChanged (it : ItemScan) : Bool :=
  it.local_hash != it.baseline_hash

/-- The remote side changed since the last synced baseline. -/
def remoteChanged (it : ItemScan) : Bool :=
  it.remote_hash != it.baseline_hash

/-- Modelled from the spec: the Conflict Resolver's classification (§4.2).
If only one side changed since baseline the item is not a conflict; if both
changed, a deleted side gives a deletion conflict, a directory/file
disagreement a type-mismatch, and differing content hashes a both-modified
conflict; both sides changed to identical content is no conflict. -/
def classify (it : ItemScan) : Option ConflictType :=
  if localChanged it && remoteChanged it then
    match it.local_hash, it.remote_hash with
    | none, some _ => some ConflictType.localDeletedRemoteModified
    | some _, none => some ConflictType.remoteDeletedLocalModified
    | some lh, some rh =>
      if it.is_local_dir != it.is_remote_dir then some ConflictType.typeMismatch
      else if lh != rh then some ConflictType.bothModified
      else none
    | none, none => none
  else none

/-- Modelled from the spec: the durable `SyncConflict` record produced for a
classified divergence (§3, §4.2); identifier taken from the item path. -/
def mkConflict (it : ItemScan) : Option SyncConflict :=
  (classify it).map fun t =>
    { id := it.path, item_path := it.path,
      local_modified := it.local_modified, remote_modified := it.remote_modified,
      local_size := it.local_size, remote_size := it.remote_size,
      conflict_type := t }

/-- The conflicts one resolver pass emits: one record per classified item. -/
def emitConflicts (items : List ItemScan) : List SyncConflict :=
  items.filterMap mkConflict

/-- A planned one-directional operation handed to the Delta Planner (§4.2):
a changed side is pushed to the other side, a deleted side propagates the
deletion. -/
inductive PlannedOp
  | uploadFull
  | deleteRemote
  | downloadFull
  | deleteLocal
deriving DecidableEq

/-- The transfer direction a planned operation moves data in. -/
def opDirection : PlannedOp → Direction
  | PlannedOp.uploadFull => Direction.upload
  | PlannedOp.deleteRemote => Direction.upload
  | PlannedOp.downloadFull => Direction.download
  | PlannedOp.deleteLocal => Direction.download

/-- Modelled from the spec: the resolver's routing of a non-conflicting item
into the Delta Planner (§4.2): a one-sided change flows through as a
one-directional update; conflicting items do not enter the planner. -/
def planItem (it : ItemScan) : Option PlannedOp :=
  if (classify it).isSome then none
  else if localChanged it then
    match it.local_hash with
    | none => some PlannedOp.deleteRemote
    | some _ => some PlannedOp.uploadFull
  else if remoteChanged it then
    match it.remote_hash with
    | none => some PlannedOp.deleteLocal
    | some _ => some PlannedOp.downloadFull
  else none

/-- The planner queue of one pass: all non-conflicting one-directional
updates, in scan order. -/
def plannedUpdates (items : List ItemScan) : List (String × PlannedOp) :=
  items.filterMap fun it => (planItem it).map fun op => (it.path, op)

/-- The pass's success tally: conflicted items are excluded until resolved
(§8); only items that classified as non-conflicting count. -/
def successTally (items : List ItemScan) : Nat :=
  (items.filter fun it => (classify it).isNone).length

/-- Modelled from the spec: the per-pass counters of `SyncResult` (§3):
conflicted items are counted in `conflicts` and in no success counter. -/
def passResult (items : List ItemScan) (dur : Nat) : SyncResult :=
  { success := true
    items_uploaded := items.countP fun it => planItem it == some PlannedOp.uploadFull
    items_downloaded := items.countP fun it => planItem it == some PlannedOp.downloadFull
    items_deleted := items.countP fun it =>
      planItem it == some PlannedOp.deleteRemote || planItem it == some PlannedOp.deleteLocal
    conflicts := items.countP fun it => (classify it).isSome
    errors := []
    duration_ms := dur }

theorem mkConflict_path (it : ItemScan) (c : SyncConflict)
    (h : mkConflict it = some c) : c.item_path = it.path := by
  unfold mkConflict at h
  cases hc : classify it with
  | none => rw [hc] at h; simp at h
  | some ty => rw [hc] at h; simp at h; rw [← h]

theorem emitConflicts_countP (items : List ItemScan) (p : String) :
    (emitConflicts items).countP (fun c => c.item_path == p)
      = items.countP (fun j => j.path == p && (classify j).isSome) := by
  induction items with
  | nil => rfl
  | cons a t ih =>
    cases hc : classify a with
    | none =>
      simp only [emitConflicts, List.filterMap_cons, mkConflict, hc, Option.map_none',
        List.countP_cons, hc, Option.isSome_none, Bool.and_false] at *
      simpa using ih
    | some ty =>
      simp only [emitConflicts, List.filterMap_cons, mkConflict, hc, Option.map_some',
        List.countP_cons, Option.isSome_some, Bool.and_true] at *
      rw [ih]

theorem tally_partition (items : List ItemScan) :
    successTally items + items.countP (fun it => (classify it).isSome) = items.length := by
  rw [successTally, ← List.countP_eq_length_filter,
    List.length_eq_countP_add_countP (fun it => (classify it).isNone) items]
  congr 1
  apply List.countP_congr
  intro x _
  cases classify x <;> simp

/-- Claim C1: an item whose local and remote hashes both changed since the
synced baseline and differ from each other classifies as a both-modified
conflict; within a pass whose scan lists the item's path once, exactly one
`SyncConflict` for that path is emitted; the item does not enter the
planner queue; and the pass's counters exclude it from the success tally
(it sits on the `conflicts` side of the tally partition) while the
conflict is pending. -/
theorem conflict_both_modified_unique
    (items : List ItemScan) (it : ItemScan) (h0 h1 h2 : String)
    (hmem : it ∈ items)
    (huniq : items.countP (fun j => j.path == it.path) = 1)
    (hb : it.baseline_hash = some h0)
    (hl : it.local_hash = some h1)
    (hr : it.remote_hash = some h2)
    (hdir : it.is_local_dir = it.is_remote_dir)
    (h10 : h1 ≠ h0) (h20 : h2 ≠ h0) (h12 : h1 ≠ h2) :
    classify it = some ConflictType.bothModified ∧
    (emitConflicts items).countP (fun c => c.item_path == it.path) = 1 ∧
    planItem it = none ∧
    successTally items + (passResult items 0).conflicts = items.length ∧
    it ∉ items.filter (fun j => (classify j).isNone) := by
  have hLC : localChanged it = true := by
    simp [localChanged, hl, hb, bne_iff_ne, h10]
  have hRC : remoteChanged it = true := by
    simp [remoteChanged, hr, hb, bne_iff_ne, h20]
  have hcl : classify it = some ConflictType.bothModified := by
    simp [classify, hLC, hRC, hl, hr, hdir, bne_iff_ne, h12]
  refine ⟨hcl, ?_, ?_, ?_, ?_⟩
  · rw [emitConflicts_countP]
    have hle : items.countP (fun j => j.path == it.path && (classify j).isSome)
        ≤ items.countP (fun j => j.path == it.path) :=
      List.countP_mono_left fun x _ hx => by
        exact (Bool.and_elim_left hx)
    have hpos : 0 < items.countP (fun j => j.path == it.path && (classify j).isSome) := by
      refine List.countP_pos_iff.mpr ⟨it, hmem, ?_⟩
      simp [hcl]
    omega
  · simp [planItem, hcl]
  · have := tally_partition items
    simpa [passResult] using this
  · intro hmemf
    rcases List.mem_filter.mp hmemf with ⟨-, hp⟩
    rw [hcl] at hp
    simp at hp

/-- The spec's §8 example: baseline hash `h0`, local edit to `h1`, remote
edit to `h2`, all distinct. -/
def bothEditedItem : ItemScan :=
  { path := "/f", is_local_dir := false, is_remote_dir := false,
    baseline_hash := some "h0", local_hash := some "h1", remote_hash := some "h2",
    local_modified := 5, remote_modified := 6, local_size := 100, remote_size := 200 }

/-- Claim C1 witness: `conflict_both_modified_unique` at the spec's concrete
example (baseline `h0`, local `h1`, remote `h2`). -/
theorem conflict_both_modified_unique_witness :
    classify bothEditedItem = some ConflictType.bothModified ∧
    (emitConflicts [bothEditedItem]).countP
      (fun c => c.item_path == bothEditedItem.path) = 1 ∧
    planItem bothEditedItem = none ∧
    successTally [bothEditedItem] + (passResult [bothEditedItem] 0).conflicts = 1 ∧
    bothEditedItem ∉ [bothEditedItem].filter (fun j => (classify j).isNone) :=
  conflict_both_modified_unique [bothEditedItem] bothEditedItem "h0" "h1" "h2"
    (by decide) (by decide) (by decide) (by decide) (by decide) (by decide)
    (by decide) (by decide) (by decide)

/-- Claim C2: an item where only one side changed since the synced baseline
never produces a `SyncConflict`; it is routed to the Delta Planner as a
one-directional update whose direction matches the side that changed. -/
theorem one_sided_change_not_conflict
    (it : ItemScan)
    (h : (localChanged it = true ∧ remoteChanged it = false) ∨
         (localChanged it = false ∧ remoteChanged it = true)) :
    classify it = none ∧ mkConflict it = none ∧
    ∃ op, planItem it = some op ∧
      opDirection op =
        (if localChanged it then Direction.upload else Direction.download) ∧
      ∀ items, it ∈ items → (it.path, op) ∈ plannedUpdates items := by
  have hcl : classify it = none := by
    rcases h with ⟨hL, hR⟩ | ⟨hL, hR⟩ <;> simp [classify, hL, hR]
  have hmk : mkConflict it = none := by simp [mkConflict, hcl]
  refine ⟨hcl, hmk, ?_⟩
  have hmemOf : ∀ op, planItem it = some op →
      ∀ items, it ∈ items → (it.path, op) ∈ plannedUpdates items := by
    intro op hop items hmem
    simp only [plannedUpdates, List.mem_filterMap]
    exact ⟨it, hmem, by simp [hop]⟩
  rcases h with ⟨hL, hR⟩ | ⟨hL, hR⟩
  · cases hlh : it.local_hash with
    | none =>
      refine ⟨PlannedOp.deleteRemote, ?_, by simp [hL, opDirection], ?_⟩
      · simp [planItem, hcl, hL, hlh]
      · exact fun items hm => hmemOf _ (by simp [planItem, hcl, hL, hlh]) items hm
    | some lh =>
      refine ⟨PlannedOp.uploadFull, ?_, by simp [hL, opDirection], ?_⟩
      · simp [planItem, hcl, hL, hlh]
      · exact fun items hm => hmemOf _ (by simp [planItem, hcl, hL, hlh]) items hm
  · cases hrh : it.remote_hash with
    | none =>
      refine ⟨PlannedOp.deleteLocal, ?_, by simp [hL, opDirection], ?_⟩
      · simp [planItem, hcl, hL, hR, hrh]
      · exact fun items hm => hmemOf _ (by simp [planItem, hcl, hL, hR, hrh]) items hm
    | some rh =>
      refine ⟨PlannedOp.downloadFull, ?_, by simp [hL, opDirection], ?_⟩
      · simp [planItem, hcl, hL, hR, hrh]
      · exact fun items hm => hmemOf _ (by simp [planItem, hcl, hL, hR, hrh]) items hm

/-- An item only edited locally: remote still holds the baseline content. -/
def localOnlyEdit : ItemScan :=
  { path := "/g", is_local_dir := false, is_remote_dir := false,
    baseline_hash := some "h0", local_hash := some "h1", remote_hash := some "h0",
    local_modified := 3, remote_modified := 1, local_size := 10, remote_size := 8 }

/-- Claim C2 witness: `one_sided_change_not_conflict` at a concrete item
only edited locally. -/
theorem one_sided_change_not_conflict_witness :
    classify localOnlyEdit = none ∧ mkConflict localOnlyEdit = none ∧
    ∃ op, planItem localOnlyEdit = some op ∧
      opDirection op =
        (if localChanged localOnlyEdit then Direction.upload else Direction.download) ∧
      ∀ items, localOnlyEdit ∈ items → (localOnlyEdit.path, op) ∈ plannedUpdates items :=
  one_sided_change_not_conflict localOnlyEdit (Or.inl (by decide))

/-- A user resolution choice for `resolve_conflict` (wire
`resolution : int32_t`, §4.2). -/
inductive Resolution
  | keepLocal
  | keepRemote
  | keepBoth
deriving DecidableEq

/-- A flat file tree: path/content pairs, newest binding first. -/
def lookupFile (fs : List (String × String)) (p : String) : Option String :=
  (fs.find? fun e => e.1 == p).map Prod.snd

/-- Write (or overwrite) the content at a path. -/
def setFile (fs : List (String × String)) (p : String) (c : String) :
    List (String × String) :=
  (p, c) :: fs.filter fun e => e.1 != p

/-- Remove the entry at a path. -/
def removeFile (fs : List (String × String)) (p : String) :
    List (String × String) :=
  fs.filter fun e => e.1 != p

/-- Overwrite a path with the given side's content, or delete the path when
that side has no content (a resolved deletion wins). -/
def writeOrDelete (fs : List (String × String)) (p : String) :
    Option String → List (String × String)
  | some c => setFile fs p c
  | none => removeFile fs p

/-- Modelled from the spec: the distinct path under which the losing remote
copy is kept by a keep-both resolution (§4.2 renames the losing copy with a
suffix). -/
def conflictCopyPath (p : String) : String :=
  p ++ ".conflicted-copy"

/-- The single history record emitted by a conflict resolution (§4.2). -/
def resolutionHistoryEntry (c : SyncConflict) (now : Int) : SyncHistoryEntry :=
  { id := c.id, timestamp := now, operation := "conflict-resolved",
    item_path := c.item_path, direction := "none", status := "success",
    error_message := none }

/-- The durable state owned by the Conflict Resolver and the Sync State
Machine: the pending conflict set, the append-only history log (appended at
the tail, so chronological order), and the two file trees. -/
structure ConflictStore where
  conflicts : List SyncConflict
  history : List SyncHistoryEntry
  localFiles : List (String × String)
  remoteFiles : List (String × String)
deriving DecidableEq

/-- Modelled from the spec: `resolve_conflict(conflict_id, resolution)`
(§4.2, §6); the Rust implementation behind
`frbgen_oxicloud_app_wire__crate__api__oxicloud__resolve_conflict` is not
under `src/`.  Looks up the pending conflict by identifier; keep-local
overwrites the remote copy with the local one, keep-remote the inverse,
keep-both keeps the local copy at the item path and the remote copy under
the distinct suffixed path on both trees; in every case the record leaves
the conflict set and exactly one history entry is appended.  An unknown
identifier changes nothing and reports failure. -/
def resolve_conflict (st : ConflictStore) (cid : String) (r : Resolution)
    (now : Int) : ConflictStore × Bool :=
  match st.conflicts.find? fun c => c.id == cid with
  | none => (st, false)
  | some c =>
    let remaining := st.conflicts.filter fun d => d.id != cid
    let log := st.history ++ [resolutionHistoryEntry c now]
    match r with
    | Resolution.keepLocal =>
      ({ conflicts := remaining, history := log,
         localFiles := st.localFiles,
         remoteFiles :=
           writeOrDelete st.remoteFiles c.item_path
             (lookupFile st.localFiles c.item_path) }, true)
    | Resolution.keepRemote =>
      ({ conflicts := remaining, history := log,
         localFiles :=
           writeOrDelete st.localFiles c.item_path
             (lookupFile st.remoteFiles c.item_path),
         remoteFiles := st.remoteFiles }, true)
    | Resolution.keepBoth =>
      ({ conflicts := remaining, history := log,
         localFiles :=
           match lookupFile st.remoteFiles c.item_path with
           | some rc => setFile st.localFiles (conflictCopyPath c.item_path) rc
           | none => st.localFiles,
         remoteFiles :=
           match lookupFile st.localFiles c.item_path with
           | some lc =>
             match lookupFile st.remoteFiles c.item_path with
             | some rc =>
               setFile (setFile st.remoteFiles (conflictCopyPath c.item_path) rc)
                 c.item_path lc
             | none => setFile st.remoteFiles c.item_path lc
           | none => removeFile st.remoteFiles c.item_path }, true)

theorem lookupFile_setFile_self (fs : List (String × String)) (p : String)
    (c : String) : lookupFile (setFile fs p c) p = some c := by
  simp [lookupFile, setFile, List.find?_cons]

theorem lookupFile_filter_ne (fs : List (String × String)) (p q : String)
    (h : (p == q) = false) :
    lookupFile (fs.filter fun e => e.1 != q) p = lookupFile fs p := by
  induction fs with
  | nil => rfl
  | cons a t ih =>
    by_cases ha : (a.1 == p) = true
    · have haq : (a.1 != q) = true := by
        have : a.1 = p := by exact eq_of_beq ha
        subst this
        simp [bne, h]
      simp [lookupFile, List.filter_cons, haq, List.find?_cons, ha] at *
    · have ha' : (a.1 == p) = false := by
        exact Bool.eq_false_iff.mpr ha
      by_cases haq : (a.1 != q) = true
      · simp only [lookupFile, List.filter_cons, haq, if_pos, List.find?_cons, ha'] at *
        simpa using ih
      · have haq' : (a.1 != q) = false := Bool.eq_false_iff.mpr haq
        simp only [lookupFile, List.filter_cons, haq', Bool.false_eq_true, if_false,
          List.find?_cons, ha'] at *
        exact ih

theorem lookupFile_setFile_ne (fs : List (String × String)) (p q : String)
    (c : String) (h : (p == q) = false) :
    lookupFile (setFile fs q c) p = lookupFile fs p := by
  have hqp : (q == p) = false := by
    rcases Bool.eq_false_iff.mp h with _
    apply Bool.eq_false_iff.mpr
    intro hc
    have : q = p := eq_of_beq hc
    subst this
    simp [BEq.refl] at h
  simp only [lookupFile, setFile, List.find?_cons, hqp]
  exact lookupFile_filter_ne fs p q h

theorem conflictCopyPath_ne (p : String) : conflictCopyPath p ≠ p := by
  intro h
  have hlen : (conflictCopyPath p).length = p.length + 16 := by
    simp [conflictCopyPath, String.length_append]
    rfl
  rw [h] at hlen
  omega

/-- Claim C3: resolving a pending conflict with keep-local overwrites the
remote copy with the local content, with keep-remote overwrites the local
copy with the remote content, and with keep-both leaves the local content
at the item path and the remote content under a distinct suffixed path; in
every case the call succeeds, the record leaves the durable conflict set,
and exactly one `SyncHistoryEntry` (operation `conflict-resolved`) is
appended to the log. -/
theorem resolve_conflict_settles
    (st : ConflictStore) (cid : String) (c : SyncConflict) (now : Int)
    (lc rc : String)
    (hfind : (st.conflicts.find? fun d => d.id == cid) = some c)
    (hlc : lookupFile st.localFiles c.item_path = some lc)
    (hrc : lookupFile st.remoteFiles c.item_path = some rc) :
    ∀ r : Resolution,
      (resolve_conflict st cid r now).2 = true ∧
      (∀ d ∈ (resolve_conflict st cid r now).1.conflicts, (d.id == cid) = false) ∧
      (resolve_conflict st cid r now).1.history.length = st.history.length + 1 ∧
      ((resolve_conflict st cid r now).1.history.getLast?.map
        SyncHistoryEntry.operation) = some "conflict-resolved" ∧
      (r = Resolution.keepLocal →
        lookupFile (resolve_conflict st cid r now).1.remoteFiles c.item_path
          = some lc) ∧
      (r = Resolution.keepRemote →
        lookupFile (resolve_conflict st cid r now).1.localFiles c.item_path
          = some rc) ∧
      (r = Resolution.keepBoth →
        lookupFile (resolve_conflict st cid r now).1.localFiles c.item_path
            = some lc ∧
        lookupFile (resolve_conflict st cid r now).1.localFiles
            (conflictCopyPath c.item_path) = some rc ∧
        lookupFile (resolve_conflict st cid r now).1.remoteFiles c.item_path
            = some lc ∧
        lookupFile (resolve_conflict st cid r now).1.remoteFiles
            (conflictCopyPath c.item_path) = some rc ∧
        conflictCopyPath c.item_path ≠ c.item_path) := by
  intro r
  have hmemf : ∀ (l : List SyncConflict), ∀ d ∈ l.filter fun d => d.id != cid,
      (d.id == cid) = false := by
    intro l d hd
    rcases List.mem_filter.mp hd with ⟨-, hp⟩
    simpa [bne] using hp
  have hlast : ∀ (l : List SyncHistoryEntry) (e : SyncHistoryEntry),
      (l ++ [e]).getLast? = some e := by
    intro l e
    rw [List.getLast?_append]
    rfl
  have hne : (c.item_path == conflictCopyPath c.item_path) = false :=
    beq_eq_false_iff_ne.mpr fun h => conflictCopyPath_ne c.item_path h.symm
  have hne' : (conflictCopyPath c.item_path == c.item_path) = false :=
    beq_eq_false_iff_ne.mpr (conflictCopyPath_ne c.item_path)
  cases r with
  | keepLocal =>
    have h2 : (resolve_conflict st cid Resolution.keepLocal now).2 = true := by
      simp only [resolve_conflict, hfind]
    have hconf : (resolve_conflict st cid Resolution.keepLocal now).1.conflicts
        = st.conflicts.filter fun d => d.id != cid := by
      simp only [resolve_conflict, hfind]
    have hhist : (resolve_conflict st cid Resolution.keepLocal now).1.history
        = st.history ++ [resolutionHistoryEntry c now] := by
      simp only [resolve_conflict, hfind]
    have hrem : (resolve_conflict st cid Resolution.keepLocal now).1.remoteFiles
        = writeOrDelete st.remoteFiles c.item_path
            (lookupFile st.localFiles c.item_path) := by
      simp only [resolve_conflict, hfind]
    refine ⟨h2, ?_, ?_, ?_, ?_, fun h => absurd h (by decide), fun h => absurd h (by decide)⟩
    · rw [hconf]; exact hmemf st.conflicts
    · rw [hhist]; simp
    · rw [hhist, hlast]; rfl
    · intro _
      rw [hrem, hlc]
      exact lookupFile_setFile_self st.remoteFiles c.item_path lc
  | keepRemote =>
    have h2 : (resolve_conflict st cid Resolution.keepRemote now).2 = true := by
      simp only [resolve_conflict, hfind]
    have hconf : (resolve_conflict st cid Resolution.keepRemote now).1.conflicts
        = st.conflicts.filter fun d => d.id != cid := by
      simp only [resolve_conflict, hfind]
    have hhist : (resolve_conflict st cid Resolution.keepRemote now).1.history
        = st.history ++ [resolutionHistoryEntry c now] := by
      simp only [resolve_conflict, hfind]
    have hloc : (resolve_conflict st cid Resolution.keepRemote now).1.localFiles
        = writeOrDelete st.localFiles c.item_path
            (lookupFile st.remoteFiles c.item_path) := by
      simp only [resolve_conflict, hfind]
    refine ⟨h2, ?_, ?_, ?_, fun h => absurd h (by decide), ?_, fun h => absurd h (by decide)⟩
    · rw [hconf]; exact hmemf st.conflicts
    · rw [hhist]; simp
    · rw [hhist, hlast]; rfl
    · intro _
      rw [hloc, hrc]
      exact lookupFile_setFile_self st.localFiles c.item_path rc
  | keepBoth =>
    have h2 : (resolve_conflict st cid Resolution.keepBoth now).2 = true := by
      simp only [resolve_conflict, hfind]
    have hconf : (resolve_conflict st cid Resolution.keepBoth now).1.conflicts
        = st.conflicts.filter fun d => d.id != cid := by
      simp only [resolve_conflict, hfind]
    have hhist : (resolve_conflict st cid Resolution.keepBoth now).1.history
        = st.history ++ [resolutionHistoryEntry c now] := by
      simp only [resolve_conflict, hfind]
    have hloc : (resolve_conflict st cid Resolution.keepBoth now).1.localFiles
        = setFile st.localFiles (conflictCopyPath c.item_path) rc := by
      simp only [resolve_conflict, hfind, hrc]
    have hrem : (resolve_conflict st cid Resolution.keepBoth now).1.remoteFiles
        = setFile (setFile st.remoteFiles (conflictCopyPath c.item_path) rc)
            c.item_path lc := by
      simp only [resolve_conflict, hfind, hlc, hrc]
    refine ⟨h2, ?_, ?_, ?_, fun h => absurd h (by decide), fun h => absurd h (by decide), ?_⟩
    · rw [hconf]; exact hmemf st.conflicts
    · rw [hhist]; simp
    · rw [hhist, hlast]; rfl
    · intro _
      refine ⟨?_, ?_, ?_, ?_, conflictCopyPath_ne c.item_path⟩
      · rw [hloc, lookupFile_setFile_ne st.localFiles c.item_path
          (conflictCopyPath c.item_path) rc hne]
        exact hlc
      · rw [hloc]
        exact lookupFile_setFile_self st.localFiles (conflictCopyPath c.item_path) rc
      · rw [hrem]
        exact lookupFile_setFile_self _ c.item_path lc
      · rw [hrem,
          lookupFile_setFile_ne _ (conflictCopyPath c.item_path) c.item_path lc hne']
        exact lookupFile_setFile_self st.remoteFiles (conflictCopyPath c.item_path) rc

/-- A concrete pending both-modified conflict used by the C3 witness. -/
def demoConflict : SyncConflict :=
  { id := "c7", item_path := "/d", local_modified := 1, remote_modified := 2,
    local_size := 5, remote_size := 6, conflict_type := ConflictType.bothModified }

/-- A concrete durable store with one pending conflict and divergent copies
on the two trees. -/
def demoStore : ConflictStore :=
  { conflicts := [demoConflict], history := [],
    localFiles := [("/d", "LOCAL")], remoteFiles := [("/d", "REMOTE")] }

/-- Claim C3 witness: `resolve_conflict_settles` at the concrete store,
instantiated with the keep-both resolution. -/
theorem resolve_conflict_settles_witness :
    (resolve_conflict demoStore "c7" Resolution.keepBoth 9).2 = true ∧
    (∀ d ∈ (resolve_conflict demoStore "c7" Resolution.keepBoth 9).1.conflicts,
      (d.id == "c7") = false) ∧
    (resolve_conflict demoStore "c7" Resolution.keepBoth 9).1.history.length
      = demoStore.history.length + 1 ∧
    ((resolve_conflict demoStore "c7" Resolution.keepBoth 9).1.history.getLast?.map
      SyncHistoryEntry.operation) = some "conflict-resolved" ∧
    (Resolution.keepBoth = Resolution.keepLocal →
      lookupFile (resolve_conflict demoStore "c7" Resolution.keepBoth 9).1.remoteFiles
        "/d" = some "LOCAL") ∧
    (Resolution.keepBoth = Resolution.keepRemote →
      lookupFile (resolve_conflict demoStore "c7" Resolution.keepBoth 9).1.localFiles
        "/d" = some "REMOTE") ∧
    (Resolution.keepBoth = Resolution.keepBoth →
      lookupFile (resolve_conflict demoStore "c7" Resolution.keepBoth 9).1.localFiles
          "/d" = some "LOCAL" ∧
      lookupFile (resolve_conflict demoStore "c7" Resolution.keepBoth 9).1.localFiles
          (conflictCopyPath "/d") = some "REMOTE" ∧
      lookupFile (resolve_conflict demoStore "c7" Resolution.keepBoth 9).1.remoteFiles
          "/d" = some "LOCAL" ∧
      lookupFile (resolve_conflict demoStore "c7" Resolution.keepBoth 9).1.remoteFiles
          (conflictCopyPath "/d") = some "REMOTE" ∧
      conflictCopyPath "/d" ≠ "/d") :=
  resolve_conflict_settles demoStore "c7" demoConflict 9 "LOCAL" "REMOTE"
    (by decide) (by decide) (by decide) Resolution.keepBoth

/-- `wire_cst_sync_config` (bridge_generated.h, lines 27–42).  The interval
and the two speed caps are embedded as `Int`: the gateway's validation
contract (§4.6, §8) is over possibly-negative inputs, so the domain of
`update_config` must contain them. -/
structure SyncConfig where
  sync_folder : String
  database_path : String
  sync_interval_seconds : Int
  max_upload_speed_kbps : Int
  max_download_speed_kbps : Int
  delta_sync_enabled : Bool
  delta_sync_min_size : Nat
  pause_on_metered : Bool
  wifi_only : Bool
  watch_filesystem : Bool
  ignore_patterns : List String
  notifications_enabled : Bool
  launch_at_startup : Bool
  minimize_to_tray : Bool
deriving DecidableEq

/-- Modelled from the spec: the Config & Auth Gateway's validity check
(§3's invariant and §4.6): speed caps and the sync interval must be
non-negative. -/
def validConfig (c : SyncConfig) : Bool :=
  decide (0 ≤ c.sync_interval_seconds) &&
  decide (0 ≤ c.max_upload_speed_kbps) &&
  decide (0 ≤ c.max_download_speed_kbps)

/-- Modelled from the spec: `update_config` (§4.6, §6); the Rust code behind
`frbgen_oxicloud_app_wire__crate__api__oxicloud__update_config` is not
under `src/`.  An invalid new config is rejected without being applied; a
valid one replaces the stored config atomically. -/
def update_config (stored newCfg : SyncConfig) : SyncConfig × Bool :=
  if validConfig newCfg then (newCfg, true) else (stored, false)

/-- Claim C4: an `update_config` call whose new config has a negative speed
cap or a negative sync interval is rejected — the stored config is returned
unchanged, field for field — and the update is atomic: the resulting
stored config is always either exactly the old one or exactly the new one,
never a mixture. -/
theorem update_config_rejects_negative
    (stored newCfg : SyncConfig)
    (h : newCfg.sync_interval_seconds < 0 ∨ newCfg.max_upload_speed_kbps < 0 ∨
         newCfg.max_download_speed_kbps < 0) :
    update_config stored newCfg = (stored, false) ∧
    ∀ anyCfg : SyncConfig, (update_config stored anyCfg).1 = stored ∨
      (update_config stored anyCfg).1 = anyCfg := by
  constructor
  · have hv : validConfig newCfg = false := by
      rcases h with h | h | h <;>
        simp [validConfig, not_le.mpr h]
    simp [update_config, hv]
  · intro anyCfg
    by_cases hv : validConfig anyCfg
    · right; simp [update_config, hv]
    · left; simp [update_config, hv]

/-- A config whose upload cap is negative. -/
def badConfig : SyncConfig :=
  { sync_folder := "/root/sync", database_path := "/root/db",
    sync_interval_seconds := 300, max_upload_speed_kbps := -1,
    max_download_speed_kbps := 0, delta_sync_enabled := true,
    delta_sync_min_size := 1024, pause_on_metered := false, wifi_only := false,
    watch_filesystem := true, ignore_patterns := [".git"],
    notifications_enabled := true, launch_at_startup := false,
    minimize_to_tray := true }

/-- A valid stored config. -/
def goodConfig : SyncConfig :=
  { sync_folder := "/root/sync", database_path := "/root/db",
    sync_interval_seconds := 600, max_upload_speed_kbps := 0,
    max_download_speed_kbps := 0, delta_sync_enabled := false,
    delta_sync_min_size := 4096, pause_on_metered := true, wifi_only := false,
    watch_filesystem := true, ignore_patterns := [],
    notifications_enabled := false, launch_at_startup := false,
    minimize_to_tray := false }

/-- Claim C4 witness: `update_config_rejects_negative` at a stored valid
config and a new config with a `-1` upload cap. -/
theorem update_config_rejects_negative_witness :
    update_config goodConfig badConfig = (goodConfig, false) ∧
    ∀ anyCfg : SyncConfig, (update_config goodConfig anyCfg).1 = goodConfig ∨
      (update_config goodConfig anyCfg).1 = anyCfg :=
  update_config_rejects_negative goodConfig badConfig
    (Or.inr (Or.inl (by decide)))

/-- The progress percentage of §4.3: `bytes_transferred / total_bytes * 100`
in exact arithmetic, clamped to [0,100]; a pass with no bytes to move
reports 100. -/
def progressPercent (total transferred : Nat) : Nat :=
  if total = 0 then 100 else min 100 (transferred * 100 / total)

/-- Modelled from the spec: one pass's transfer plan as seen by the progress
computation (§4.3, §4.5): the byte total is snapshotted at plan time and
the scheduled chunk sizes are consumed in order; the total is never
re-read mid-transfer. -/
structure PassProgress where
  total_bytes : Nat
  chunk_sizes : List Nat
deriving DecidableEq

/-- Bytes transferred once the first `k` chunks completed. -/
def bytesAfter (p : PassProgress) (k : Nat) : Nat :=
  (p.chunk_sizes.take k).sum

/-- The `SyncStatusInfo` snapshot after `k` completed chunks. -/
def statusAt (p : PassProgress) (k : Nat) : SyncStatusInfo :=
  { is_syncing := true, current_operation := "transferring",
    progress_percent := progressPercent p.total_bytes (bytesAfter p k),
    items_synced := min k p.chunk_sizes.length,
    items_total := p.chunk_sizes.length,
    last_sync_time := none, next_sync_time := none }

theorem bytesAfter_mono (p : PassProgress) {j k : Nat} (h : j ≤ k) :
    bytesAfter p j ≤ bytesAfter p k := by
  unfold bytesAfter
  have hjk : p.chunk_sizes.take j = (p.chunk_sizes.take k).take j := by
    rw [List.take_take, Nat.min_eq_left h]
  rw [hjk]
  conv_rhs => rw [← List.take_append_drop j (p.chunk_sizes.take k)]
  rw [List.sum_append]
  exact Nat.le_add_right _ _

theorem progressPercent_mono (total : Nat) {b b' : Nat} (h : b ≤ b') :
    progressPercent total b ≤ progressPercent total b' := by
  unfold progressPercent
  by_cases ht : total = 0
  · simp [ht]
  · simp only [ht, if_neg, if_false]
    exact min_le_min (Nat.le_refl 100)
      (Nat.div_le_div_right (Nat.mul_le_mul_right 100 h))

/-- Claim C5: within one pass — whose byte total is snapshotted at plan time
and embedded in the plan — the reported progress percentage is monotonically
non-decreasing across successive snapshots and never exceeds 100, whatever
the chunk sizes turn out to be. -/
theorem progress_monotone_and_bounded
    (p : PassProgress) (j k : Nat) (h : j ≤ k) :
    (statusAt p j).progress_percent ≤ (statusAt p k).progress_percent ∧
    (statusAt p k).progress_percent ≤ 100 := by
  constructor
  · exact progressPercent_mono p.total_bytes (bytesAfter_mono p h)
  · unfold statusAt progressPercent
    by_cases ht : p.total_bytes = 0
    · simp [ht]
    · simp only [ht, if_neg, if_false]
      exact Nat.min_le_left 100 _

/-- A plan whose chunks together exceed the snapshotted total, as happens
when the remote grows during the pass. -/
def growingPass : PassProgress :=
  { total_bytes := 100, chunk_sizes := [40, 40, 40] }

/-- Claim C5 witness: `progress_monotone_and_bounded` on a pass whose chunks
outgrow the plan-time total, between the second and third snapshot. -/
theorem progress_monotone_and_bounded_witness :
    (statusAt growingPass 2).progress_percent
      ≤ (statusAt growingPass 3).progress_percent ∧
    (statusAt growingPass 3).progress_percent ≤ 100 :=
  progress_monotone_and_bounded growingPass 2 3 (by decide)

/-- The Sync State Machine's lifecycle states (§4.5). -/
inductive SyncPhase
  | idleState
  | scanning
  | syncing
  | paused
  | errored
deriving DecidableEq

/-- A pass is actively draining the queue while the machine is scanning,
syncing, or policy-paused mid-pass (§4.4–§4.5). -/
def isActivePass : SyncPhase → Bool
  | SyncPhase.scanning => true
  | SyncPhase.syncing => true
  | SyncPhase.paused => true
  | SyncPhase.idleState => false
  | SyncPhase.errored => false

/-- The engine state owned by the Sync State Machine: current phase, the
queue of item paths still to transfer this pass, and the transfers already
completed this pass. -/
structure EngineState where
  phase : SyncPhase
  queue : List String
  completed : List String
deriving DecidableEq

/-- The no-op success a coalesced `sync_now` reports (§4.4). -/
def noopSuccess : SyncResult :=
  { success := true, items_uploaded := 0, items_downloaded := 0,
    items_deleted := 0, conflicts := 0, errors := [], duration_ms := 0 }

/-- Modelled from the spec: `sync_now` (§4.4, §6); the Rust code behind
`frbgen_oxicloud_app_wire__crate__api__oxicloud__sync_now` is not under
`src/`.  While a pass is actively draining the queue the request is
coalesced into a no-op success, leaving queue, completed set and phase
untouched; otherwise the pending queue plus the newly scanned items are
drained in one pass and the machine returns to idle. -/
def sync_now (e : EngineState) (newItems : List String) :
    EngineState × SyncResult :=
  if isActivePass e.phase then (e, noopSuccess)
  else
    let work := e.queue ++ newItems
    ({ phase := SyncPhase.idleState, queue := [],
       completed := e.completed ++ work },
     { success := true, items_uploaded := work.length, items_downloaded := 0,
       items_deleted := 0, conflicts := 0, errors := [],
       duration_ms := 0 })

/-- Claim C6: a `sync_now` submitted while a pass is actively draining the
queue is coalesced into a no-op success: the engine state is untouched —
no item is queued a second time, no completed transfer is re-executed, and
the already-running pass keeps sole ownership of the queue — and the
second call reports success with zero transfer counts. -/
theorem sync_now_coalesces_when_active
    (e : EngineState) (newItems : List String)
    (h : isActivePass e.phase = true) :
    (sync_now e newItems).1 = e ∧
    (sync_now e newItems).1.queue = e.queue ∧
    (sync_now e newItems).1.completed = e.completed ∧
    (sync_now e newItems).2 = noopSuccess ∧
    (sync_now e newItems).2.success = true ∧
    (sync_now e newItems).2.items_uploaded + (sync_now e newItems).2.items_downloaded
      + (sync_now e newItems).2.items_deleted = 0 := by
  simp [sync_now, h, noopSuccess]

/-- An engine mid-pass: one transfer done, one still queued. -/
def busyEngine : EngineState :=
  { phase := SyncPhase.syncing, queue := ["/b"], completed := ["/a"] }

/-- Claim C6 witness: `sync_now_coalesces_when_active` on an engine that is
mid-pass with a non-empty queue and a completed transfer. -/
theorem sync_now_coalesces_when_active_witness :
    (sync_now busyEngine ["/c"]).1 = busyEngine ∧
    (sync_now busyEngine ["/c"]).1.queue = busyEngine.queue ∧
    (sync_now busyEngine ["/c"]).1.completed = busyEngine.completed ∧
    (sync_now busyEngine ["/c"]).2 = noopSuccess ∧
    (sync_now busyEngine ["/c"]).2.success = true ∧
    (sync_now busyEngine ["/c"]).2.items_uploaded
      + (sync_now busyEngine ["/c"]).2.items_downloaded
      + (sync_now busyEngine ["/c"]).2.items_deleted = 0 :=
  sync_now_coalesces_when_active busyEngine ["/c"] (by decide)

/-- Modelled from the spec: `get_sync_history(limit)` (§3, §6, §8); the Rust
code behind
`frbgen_oxicloud_app_wire__crate__api__oxicloud__get_sync_history` is not
under `src/`.  The log is append-only, appended at the tail (as
`resolve_conflict` does), so retrieval reverses it to newest-first and
takes at most `limit` entries. -/
def get_sync_history (log : List SyncHistoryEntry) (limit : Nat) :
    List SyncHistoryEntry :=
  log.reverse.take limit

/-- Claim C8: over a chronologically appended log of `n` entries,
`get_sync_history k` returns exactly `min k n` entries, and its `i`-th
entry is the `(n-1-i)`-th chronological entry — i.e. the `min k n` most
recent records in newest-first order. -/
theorem get_sync_history_newest_first
    (log : List SyncHistoryEntry) (k : Nat) :
    (get_sync_history log k).length = min k log.length ∧
    ∀ i : Nat, i < (get_sync_history log k).length →
      (get_sync_history log k).get? i = log.get? (log.length - 1 - i) := by
  constructor
  · simp [get_sync_history]
  · intro i hi
    have hlen : (get_sync_history log k).length = min k log.length := by
      simp [get_sync_history]
    rw [hlen] at hi
    have hik : i < k := lt_of_lt_of_le hi (Nat.min_le_left k log.length)
    have hin : i < log.length := lt_of_lt_of_le hi (Nat.min_le_right k log.length)
    unfold get_sync_history
    rw [List.get?_eq_getElem?, List.get?_eq_getElem?,
      List.getElem?_take_of_lt hik,
      List.getElem?_reverse (by simpa using hin)]

/-- A history record with the given timestamp. -/
def histEntryAt (t : Int) : SyncHistoryEntry :=
  { id := "e", timestamp := t, operation := "upload", item_path := "/h",
    direction := "up", status := "success", error_message := none }

/-- A log of 7 recorded operations, appended chronologically. -/
def demoLog : List SyncHistoryEntry :=
  [histEntryAt 1, histEntryAt 2, histEntryAt 3, histEntryAt 4, histEntryAt 5,
   histEntryAt 6, histEntryAt 7]

/-- Claim C8 witness: `get_sync_history_newest_first` after 7 recorded
operations with limit 5 — five entries come back and the head is the most
recent (the 7th chronological record). -/
theorem get_sync_history_newest_first_witness :
    (get_sync_history demoLog 5).length = min 5 demoLog.length ∧
    (get_sync_history demoLog 5).get? 0 = demoLog.get? (demoLog.length - 1 - 0) :=
  ⟨(get_sync_history_newest_first demoLog 5).1,
   (get_sync_history_newest_first demoLog 5).2 0 (by decide)⟩

/-- One planned transfer of the Transfer Scheduler: destination path and the
ordered content chunks (byte ranges) to move; the full, verified content is
the chunks joined. -/
structure Transfer where
  dest : String
  chunks : List String
deriving DecidableEq

/-- The complete content a transfer is expected to produce; commits verify
against it (§4.3's expected resulting content hash, modelled by the content
itself). -/
def fullContent (t : Transfer) : String :=
  String.join t.chunks

/-- The temporary name a transfer writes to before the atomic rename
(§4.4). -/
def tempName (p : String) : String :=
  p ++ ".part"

/-- The destination tree split into committed files at their final paths and
in-flight partial writes at temporary names. -/
structure XferFs where
  final : List (String × String)
  temp : List (String × String)
deriving DecidableEq

/-- One observable scheduler step: appending a chunk to a transfer's
temporary file, or committing a transfer — the atomic rename, performed
only when the temporary content equals the full verified content. -/
inductive XferStep
  | writeChunk (t : Transfer) (c : String)
  | commit (t : Transfer)
deriving DecidableEq

/-- Modelled from the spec: the effect of one scheduler step (§4.4); the
Rust code behind
`frbgen_oxicloud_app_wire__crate__api__oxicloud__stop_sync` is not under
`src/`.  Chunk writes only touch the temporary name; the commit touches the
final path in a single step and only when the temporary content is the
full, verified content. -/
def applyStep (fs : XferFs) : XferStep → XferFs
  | XferStep.writeChunk t c =>
    let cur := (lookupFile fs.temp (tempName t.dest)).getD ""
    { final := fs.final, temp := setFile fs.temp (tempName t.dest) (cur ++ c) }
  | XferStep.commit t =>
    if lookupFile fs.temp (tempName t.dest) = some (fullContent t) then
      { final := setFile fs.final t.dest (fullContent t),
        temp := removeFile fs.temp (tempName t.dest) }
    else fs

/-- The step sequence of one transfer: its chunk writes, then its commit. -/
def stepsOf (t : Transfer) : List XferStep :=
  t.chunks.map (XferStep.writeChunk t) ++ [XferStep.commit t]

/-- The whole pass's step sequence, item major (§5: cancellation is observed
between queue items and before starting a new byte range, so a stop point
is a prefix of this sequence). -/
def planSteps (ts : List Transfer) : List XferStep :=
  (ts.map stepsOf).flatten

/-- Run a sequence of scheduler steps. -/
def execSteps (fs : XferFs) (ss : List XferStep) : XferFs :=
  ss.foldl applyStep fs

/-- Modelled from the spec: a pass stopped by `stop_sync` after `n` observed
steps: the already-performed prefix stands, the rest of the queue is never
dequeued, and the state machine transitions to idle once drained
(§4.4–§4.5). -/
def runWithStop (fs : XferFs) (ts : List Transfer) (n : Nat) :
    XferFs × SyncPhase :=
  (execSteps fs ((planSteps ts).take n), SyncPhase.idleState)

theorem execSteps_final_lookup (ss : List XferStep) (fs : XferFs) (p : String) :
    lookupFile (execSteps fs ss).final p = lookupFile fs.final p ∨
    ∃ t, XferStep.commit t ∈ ss ∧ t.dest = p ∧
      lookupFile (execSteps fs ss).final p = some (fullContent t) := by
  induction ss generalizing fs with
  | nil => left; rfl
  | cons s tail ih =>
    have hrun : execSteps fs (s :: tail) = execSteps (applyStep fs s) tail := rfl
    rcases ih (applyStep fs s) with h | ⟨t, htmem, hdest, hval⟩
    · rw [hrun, h]
      cases s with
      | writeChunk t c => left; rfl
      | commit t =>
        simp only [applyStep]
        by_cases hv : lookupFile fs.temp (tempName t.dest) = some (fullContent t)
        · rw [if_pos hv]
          by_cases hp : (p == t.dest) = true
          · right
            refine ⟨t, by simp, (eq_of_beq hp).symm, ?_⟩
            have : p = t.dest := eq_of_beq hp
            rw [this]
            exact lookupFile_setFile_self fs.final t.dest (fullContent t)
          · left
            exact lookupFile_setFile_ne fs.final p t.dest (fullContent t)
              (Bool.eq_false_iff.mpr hp)
        · rw [if_neg hv]
          left; rfl
    · rw [hrun]
      exact Or.inr ⟨t, List.mem_cons_of_mem s htmem, hdest, hval⟩

theorem commit_mem_planSteps {ts : List Transfer} {t : Transfer}
    (h : XferStep.commit t ∈ planSteps ts) : t ∈ ts := by
  unfold planSteps at h
  rcases List.mem_flatten.mp h with ⟨l, hl, hmem⟩
  rcases List.mem_map.mp hl with ⟨u, hu, rfl⟩
  unfold stepsOf at hmem
  rcases List.mem_append.mp hmem with h1 | h1
  · rcases List.mem_map.mp h1 with ⟨c, -, hc⟩
    simp at hc
  · have : XferStep.commit t = XferStep.commit u := List.mem_singleton.mp h1
    have ht : t = u := by injection this
    rw [ht]
    exact hu

/-- Claim C7: whenever a pass over any transfer queue is stopped after any
number of observed steps, every destination file is either exactly in its
pre-transfer state or holds the full committed content of one of the
queue's transfers — never a partial write, because chunks land under a
temporary name and the final path changes only at the verified atomic
commit — and the state machine is idle once drained. -/
theorem stop_sync_no_partial_writes
    (fs : XferFs) (ts : List Transfer) (n : Nat) (p : String) :
    (runWithStop fs ts n).2 = SyncPhase.idleState ∧
    (lookupFile (runWithStop fs ts n).1.final p = lookupFile fs.final p ∨
     ∃ t, t ∈ ts ∧ t.dest = p ∧
       lookupFile (runWithStop fs ts n).1.final p = some (fullContent t)) := by
  refine ⟨rfl, ?_⟩
  rcases execSteps_final_lookup ((planSteps ts).take n) fs p with
    h | ⟨t, hmem, hdest, hval⟩
  · left; exact h
  · right
    exact ⟨t, commit_mem_planSteps (List.mem_of_mem_take hmem), hdest, hval⟩

end OxiCloud
